import Mathlib

/-!
Shallow embedding of the hastur-go client library (`hastur.go`) and proofs
about its message-construction and dispatch pipeline: default-label merging,
application-name resolution, truncation rules, timestamp conversion,
`RegisterProcess` data overlay and the re-entrancy-guarded `send` path.

Go `map[string]V` values are modelled extensionally as partial functions from
keys to values; a `for k, v := range src` copy loop writes each key of `src`
exactly once, so its net effect is the pointwise overlay `GoMap.addAll`.
Go `time.Time` values are modelled by their `UnixNano()` integer. JSON
serialization (`encoding/json`, an external library) is abstracted as a
parameter `enc`; the dispatcher logic itself is embedded faithfully.
-/

namespace Hastur

/-- A Go `map[string]V` value, modelled extensionally: `m k = some v` means
key `k` is present and maps to `v`, `m k = none` means `k` is absent. -/
abbrev GoMap (V : Type) := String → Option V

namespace GoMap

/-- The empty map, `make(map[string]V)`. -/
def empty {V : Type} : GoMap V := fun _ => none

/-- Single-key assignment `m[k] = v`. -/
def insert {V : Type} (m : GoMap V) (k : String) (v : V) : GoMap V :=
  fun q => if q = k then some v else m q

/-- Key deletion `delete(m, k)`. -/
def erase {V : Type} (m : GoMap V) (k : String) : GoMap V :=
  fun q => if q = k then none else m q

/-- Net effect of the Go loop `for k, v := range src` writing `dst[k] = v`:
every entry of `src` overwrites the same-named entry of `dst`. Each key of
`src` is visited exactly once, so the result is independent of Go's
randomized map iteration order. -/
def addAll {V : Type} (dst src : GoMap V) : GoMap V :=
  fun q =>
    match src q with
    | some v => some v
    | none => dst q

end GoMap

/-- A Go `interface` value supplied by callers as a label value or a data
value: JSON scalars, arrays, and float64 values carried opaquely by their
bit pattern (no claim inspects float arithmetic). -/
inductive JVal where
  | null
  | boolVal (b : Bool)
  | str (s : String)
  | int (n : Int)
  | float (bits : Nat)
  | arr (elems : List JVal)

/-- A value stored in a top-level message field: either a plain value or a
nested string-keyed map (the `labels` map and the `data` maps). -/
inductive FVal where
  | val (v : JVal)
  | map (m : GoMap JVal)

/-- A message under construction: the `map[string]interface` field map that
`send` receives. -/
abbrev Msg := GoMap FVal

/-- The wire encoder, abstracting `json.Marshal`: either the serialized bytes
or the error text (`err.Error()`). -/
abbrev Enc := Msg → Except String String

/-- Process environment read at emission time: the current clock
(`time.Now()` as nanoseconds since the Unix epoch), the process id
(`os.Getpid()`), the executable invocation name (`os.Args` entry 0), and the
current value of the `HASTUR_APP_NAME` environment variable (empty string
when unset). -/
structure Env where
  now : Int
  pid : Int
  args0 : String
  hasturAppName : String

/-- The package-level mutable state of the library: the `appName` override
(empty string means unset), the stored `defaultLabels` map, the
`recurringSend` re-entrancy flag, the library `Version` string, and the
sequence of datagrams written so far (`conn.Write` calls, oldest first). -/
structure State where
  appName : String
  defaultLabels : GoMap JVal
  recurringSend : Bool
  version : String
  sent : List String

/-- Go `func convertTime(t time.Time) int64` is `t.UnixNano() / 1000`;
Go integer division truncates toward zero, which is `Int.tdiv`. -/
def convertTime (t : Int) : Int := Int.tdiv t 1000

/-- Go `func AppName() string`: the explicit override if non-empty, else the
`HASTUR_APP_NAME` environment variable if non-empty, else `os.Args[0]`. -/
def AppName (env : Env) (st : State) : String :=
  if st.appName ≠ "" then st.appName
  else if env.hasturAppName ≠ "" then env.hasturAppName
  else env.args0

/-- Go `func SetAppName(name string)`. -/
def SetAppName (st : State) (name : String) : State :=
  { st with appName := name }

/-- Go `func AddDefaultLabels(labels map[string]interface)`: upserts every
entry of the argument into the stored default-label map. -/
def AddDefaultLabels (st : State) (labels : GoMap JVal) : State :=
  { st with defaultLabels := GoMap.addAll st.defaultLabels labels }

/-- Go `func RemoveDefaultLabels(labels ...string)`: deletes each named key
from the stored default-label map. -/
def RemoveDefaultLabels (st : State) (labels : List String) : State :=
  { st with defaultLabels := labels.foldl GoMap.erase st.defaultLabels }

/-- Go `func DefaultLabels() map[string]interface`: starts from the map
literal with fresh `pid` and `app`, then copies every stored default entry
over it (so a stored entry named `pid` or `app` overwrites the fresh one). -/
def DefaultLabels (env : Env) (st : State) : GoMap JVal :=
  let labels :=
    (GoMap.empty.insert "pid" (JVal.int env.pid)).insert "app"
      (JVal.str (AppName env st))
  GoMap.addAll labels st.defaultLabels

/-- Go `func mergeDefaultLabels(labels map[string]interface)`: copies the
caller labels into a fresh map, then copies every entry of `DefaultLabels()`
over them. -/
def mergeDefaultLabels (env : Env) (st : State) (labels : GoMap JVal) : GoMap JVal :=
  let result := GoMap.addAll GoMap.empty labels
  GoMap.addAll result (DefaultLabels env st)

/-- Go inline truncation `if len(s) > limit` then `s[:limit]` else `s`
(string length and slicing modelled at character granularity). -/
def truncateTo (limit : Nat) (s : String) : String :=
  if s.length > limit then String.mk (s.data.take limit) else s

/-- The field map built by `MarkFull` before it is passed to `send`. -/
def markMessage (env : Env) (st : State) (name value : String) (ts : Int)
    (labels : GoMap JVal) : Msg :=
  ((((GoMap.empty.insert "type" (FVal.val (JVal.str "mark"))).insert
        "name" (FVal.val (JVal.str name))).insert
      "value" (FVal.val (JVal.str value))).insert
    "timestamp" (FVal.val (JVal.int (convertTime ts)))).insert
    "labels" (FVal.map (mergeDefaultLabels env st labels))

/-- The field map built by `CounterFull`. -/
def counterMessage (env : Env) (st : State) (name : String) (value : Int)
    (ts : Int) (labels : GoMap JVal) : Msg :=
  ((((GoMap.empty.insert "type" (FVal.val (JVal.str "counter"))).insert
        "name" (FVal.val (JVal.str name))).insert
      "value" (FVal.val (JVal.int value))).insert
    "timestamp" (FVal.val (JVal.int (convertTime ts)))).insert
    "labels" (FVal.map (mergeDefaultLabels env st labels))

/-- The field map built by `GaugeFull` (the float64 value is carried by its
bit pattern). -/
def gaugeMessage (env : Env) (st : State) (name : String) (value : Nat)
    (ts : Int) (labels : GoMap JVal) : Msg :=
  ((((GoMap.empty.insert "type" (FVal.val (JVal.str "gauge"))).insert
        "name" (FVal.val (JVal.str name))).insert
      "value" (FVal.val (JVal.float value))).insert
    "timestamp" (FVal.val (JVal.int (convertTime ts)))).insert
    "labels" (FVal.map (mergeDefaultLabels env st labels))

/-- The field map built by `EventFull`: `subject` and `body` are truncated
to 3072 characters before being stored. -/
def eventMessage (env : Env) (st : State) (name subject body : String)
    (attn : List String) (ts : Int) (labels : GoMap JVal) : Msg :=
  ((((((GoMap.empty.insert "type" (FVal.val (JVal.str "event"))).insert
          "name" (FVal.val (JVal.str name))).insert
        "subject" (FVal.val (JVal.str (truncateTo 3072 subject)))).insert
      "body" (FVal.val (JVal.str (truncateTo 3072 body)))).insert
    "attn" (FVal.val (JVal.arr (attn.map JVal.str)))).insert
    "timestamp" (FVal.val (JVal.int (convertTime ts)))).insert
    "labels" (FVal.map (mergeDefaultLabels env st labels))

/-- The field map built by `LogFull`: `subject` is truncated to 7168
characters before being stored. -/
def logMessage (env : Env) (st : State) (subject : String) (data : JVal)
    (ts : Int) (labels : GoMap JVal) : Msg :=
  ((((GoMap.empty.insert "type" (FVal.val (JVal.str "log"))).insert
        "subject" (FVal.val (JVal.str (truncateTo 7168 subject)))).insert
      "data" (FVal.val data)).insert
    "timestamp" (FVal.val (JVal.int (convertTime ts)))).insert
    "labels" (FVal.map (mergeDefaultLabels env st labels))

/-- The `allData` map built by `RegisterProcess`: the base literal with
`name`, `language: "go"` and `version`, then every caller-supplied entry
copied over it. -/
def regProcessData (st : State) (name : String) (data : GoMap JVal) : GoMap JVal :=
  let allData :=
    ((GoMap.empty.insert "name" (JVal.str name)).insert
        "language" (JVal.str "go")).insert
      "version" (JVal.str st.version)
  GoMap.addAll allData data

/-- The field map built by `RegisterProcess`. -/
def regProcessMessage (env : Env) (st : State) (name : String)
    (data : GoMap JVal) (ts : Int) (labels : GoMap JVal) : Msg :=
  (((GoMap.empty.insert "type" (FVal.val (JVal.str "reg_process"))).insert
      "data" (FVal.map (regProcessData st name data))).insert
    "timestamp" (FVal.val (JVal.int (convertTime ts)))).insert
    "labels" (FVal.map (mergeDefaultLabels env st labels))

/-- The field map built by `HeartbeatFull` (float64 `value` and `timeout`
carried by their bit patterns). -/
def heartbeatMessage (env : Env) (st : State) (name : String)
    (value timeout : Nat) (ts : Int) (labels : GoMap JVal) : Msg :=
  (((((GoMap.empty.insert "type" (FVal.val (JVal.str "hb_process"))).insert
        "name" (FVal.val (JVal.str name))).insert
      "value" (FVal.val (JVal.float value))).insert
    "timeout" (FVal.val (JVal.float timeout))).insert
    "timestamp" (FVal.val (JVal.int (convertTime ts)))).insert
    "labels" (FVal.map (mergeDefaultLabels env st labels))

/-- Modelled from the spec: the field map of an `info_process` message.
`InfoProcess`/`InfoProcessFull` are absent from `src/hastur.go` (only the
tests call them); per the spec table the message carries `type`
`"info_process"`, the string `tag`, the arbitrary `data` map, the converted
timestamp and the merged labels. -/
def infoProcessMessage (env : Env) (st : State) (tag : String)
    (data : GoMap JVal) (ts : Int) (labels : GoMap JVal) : Msg :=
  ((((GoMap.empty.insert "type" (FVal.val (JVal.str "info_process"))).insert
        "tag" (FVal.val (JVal.str tag))).insert
      "data" (FVal.map data)).insert
    "timestamp" (FVal.val (JVal.int (convertTime ts)))).insert
    "labels" (FVal.map (mergeDefaultLabels env st labels))

/-- Modelled from the spec: the field map of an `info_agent` message, shaped
exactly like `info_process` but with type tag `"info_agent"`. -/
def infoAgentMessage (env : Env) (st : State) (tag : String)
    (data : GoMap JVal) (ts : Int) (labels : GoMap JVal) : Msg :=
  ((((GoMap.empty.insert "type" (FVal.val (JVal.str "info_agent"))).insert
        "tag" (FVal.val (JVal.str tag))).insert
      "data" (FVal.map data)).insert
    "timestamp" (FVal.val (JVal.int (convertTime ts)))).insert
    "labels" (FVal.map (mergeDefaultLabels env st labels))

/-- The subject string of the fallback log message:
`fmt.Sprintf("Error marshalling json message: %s", err.Error())`. -/
def errorSubject (e : String) : String :=
  "Error marshalling json message: " ++ e

/-- Go `func send(message interface)` with an explicit recursion budget.
On encoding success the bytes are appended to the datagram log (the
`conn.Write` error is ignored). On encoding failure: if `recurringSend` is
already set the message is dropped; otherwise the flag is set, the fallback
`Log(errorSubject, "")` message is sent through the same path (it is built
by `LogFull` with `time.Now()` and an empty label map), and the deferred
`recurringSend = false` runs when `send` returns. The fuel only bounds the
nested fallback call, which the flag stops after one level: a fuel-0 call is
only ever reached with the flag set, where it encodes-and-writes or drops,
exactly as the flag branch does; see `sendGo_fuel_irrelevant`. -/
def sendGo (enc : Enc) (env : Env) : Nat → State → Msg → State
  | 0, st, m =>
    match enc m with
    | Except.ok bytes => { st with sent := st.sent ++ [bytes] }
    | Except.error _ => st
  | f + 1, st, m =>
    match enc m with
    | Except.ok bytes => { st with sent := st.sent ++ [bytes] }
    | Except.error e =>
      if st.recurringSend then st
      else
        let st1 := { st with recurringSend := true }
        let st2 := sendGo enc env f st1
          (logMessage env st1 (errorSubject e) (JVal.str "") env.now GoMap.empty)
        { st2 with recurringSend := false }

/-- Go `send`: recursion budget 1 suffices because the re-entrancy flag is
set before the only nested call (`sendGo_fuel_irrelevant` proves the budget
does not matter). -/
def send (enc : Enc) (env : Env) (st : State) (m : Msg) : State :=
  sendGo enc env 1 st m

/-- The fallback message that `send` emits when `enc` fails with error text
`e`: the `Log` call made from the error branch, built at the emission-time
clock with an empty caller label map. -/
def fallbackMessage (env : Env) (st : State) (e : String) : Msg :=
  logMessage env { st with recurringSend := true }
    (errorSubject e) (JVal.str "") env.now GoMap.empty

/-- Go `func MarkFull`. -/
def MarkFull (enc : Enc) (env : Env) (st : State) (name value : String)
    (ts : Int) (labels : GoMap JVal) : State :=
  send enc env st (markMessage env st name value ts labels)

/-- Go `func Mark`: `MarkFull` at `time.Now()` with a fresh empty label map. -/
def Mark (enc : Enc) (env : Env) (st : State) (name value : String) : State :=
  MarkFull enc env st name value env.now GoMap.empty

/-- Go `func CounterFull`. -/
def CounterFull (enc : Enc) (env : Env) (st : State) (name : String)
    (value : Int) (ts : Int) (labels : GoMap JVal) : State :=
  send enc env st (counterMessage env st name value ts labels)

/-- Go `func Counter`. -/
def Counter (enc : Enc) (env : Env) (st : State) (name : String) (value : Int) : State :=
  CounterFull enc env st name value env.now GoMap.empty

/-- Go `func GaugeFull`. -/
def GaugeFull (enc : Enc) (env : Env) (st : State) (name : String)
    (value : Nat) (ts : Int) (labels : GoMap JVal) : State :=
  send enc env st (gaugeMessage env st name value ts labels)

/-- Go `func Gauge`. -/
def Gauge (enc : Enc) (env : Env) (st : State) (name : String) (value : Nat) : State :=
  GaugeFull enc env st name value env.now GoMap.empty

/-- Go `func EventFull`. -/
def EventFull (enc : Enc) (env : Env) (st : State) (name subject body : String)
    (attn : List String) (ts : Int) (labels : GoMap JVal) : State :=
  send enc env st (eventMessage env st name subject body attn ts labels)

/-- Go `func Event`. -/
def Event (enc : Enc) (env : Env) (st : State) (name subject body : String)
    (attn : List String) : State :=
  EventFull enc env st name subject body attn env.now GoMap.empty

/-- Go `func LogFull`. -/
def LogFull (enc : Enc) (env : Env) (st : State) (subject : String)
    (data : JVal) (ts : Int) (labels : GoMap JVal) : State :=
  send enc env st (logMessage env st subject data ts labels)

/-- Go `func Log`. -/
def Log (enc : Enc) (env : Env) (st : State) (subject : String) (data : JVal) : State :=
  LogFull enc env st subject data env.now GoMap.empty

/-- Go `func RegisterProcess`. -/
def RegisterProcess (enc : Enc) (env : Env) (st : State) (name : String)
    (data : GoMap JVal) (ts : Int) (labels : GoMap JVal) : State :=
  send enc env st (regProcessMessage env st name data ts labels)

/-- Go `func HeartbeatFull`. -/
def HeartbeatFull (enc : Enc) (env : Env) (st : State) (name : String)
    (value timeout : Nat) (ts : Int) (labels : GoMap JVal) : State :=
  send enc env st (heartbeatMessage env st name value timeout ts labels)

/-- Go `func Heartbeat(name string)`: value and timeout 0. -/
def Heartbeat (enc : Enc) (env : Env) (st : State) (name : String) : State :=
  HeartbeatFull enc env st name 0 0 env.now GoMap.empty

/-- Modelled from the spec: `InfoProcessFull(tag, data, timestamp, labels)`,
the explicit-timestamp form absent from `src/hastur.go`. -/
def InfoProcessFull (enc : Enc) (env : Env) (st : State) (tag : String)
    (data : GoMap JVal) (ts : Int) (labels : GoMap JVal) : State :=
  send enc env st (infoProcessMessage env st tag data ts labels)

/-- Modelled from the spec: `InfoProcess(tag, data)`, the convenience form
defaulting the timestamp to now and the labels to empty. -/
def InfoProcess (enc : Enc) (env : Env) (st : State) (tag : String)
    (data : GoMap JVal) : State :=
  InfoProcessFull enc env st tag data env.now GoMap.empty

/-- Modelled from the spec: `InfoAgentFull(tag, data, timestamp, labels)`,
the explicit-timestamp form absent from `src/hastur.go`. -/
def InfoAgentFull (enc : Enc) (env : Env) (st : State) (tag : String)
    (data : GoMap JVal) (ts : Int) (labels : GoMap JVal) : State :=
  send enc env st (infoAgentMessage env st tag data ts labels)

/-- Modelled from the spec: `InfoAgent(tag, data)`, the convenience form
defaulting the timestamp to now and the labels to empty. -/
def InfoAgent (enc : Enc) (env : Env) (st : State) (tag : String)
    (data : GoMap JVal) : State :=
  InfoAgentFull enc env st tag data env.now GoMap.empty

/-! Helper lemmas shared by the claim theorems. -/

/-- Pointwise value of the merged label map: a stored default entry wins if
present; otherwise the fresh `app` or `pid` entry; otherwise the caller
entry. -/
theorem mergeDefaultLabels_apply (env : Env) (st : State) (caller : GoMap JVal)
    (q : String) :
    mergeDefaultLabels env st caller q =
      match st.defaultLabels q with
      | some v => some v
      | none =>
        if q = "app" then some (JVal.str (AppName env st))
        else if q = "pid" then some (JVal.int env.pid)
        else caller q := by
  by_cases hqa : q = "app"
  · subst hqa
    cases hd : st.defaultLabels "app" <;>
      simp [mergeDefaultLabels, DefaultLabels, GoMap.addAll, GoMap.insert,
        GoMap.empty, hd]
  · by_cases hqp : q = "pid"
    · subst hqp
      cases hd : st.defaultLabels "pid" <;>
        simp [mergeDefaultLabels, DefaultLabels, GoMap.addAll, GoMap.insert,
          GoMap.empty, hd]
    · cases hd : st.defaultLabels q <;> cases hc : caller q <;>
        simp [mergeDefaultLabels, DefaultLabels, GoMap.addAll, GoMap.insert,
          GoMap.empty, hd, hc, hqa, hqp]

/-- A `sendGo` call that starts with the re-entrancy flag set either writes
the encoded bytes or drops the message; it never recurses, whatever the
fuel. -/
theorem sendGo_flagged (enc : Enc) (env : Env) (f : Nat) (st : State) (m : Msg)
    (h : st.recurringSend = true) :
    sendGo enc env f st m =
      match enc m with
      | Except.ok bytes => { st with sent := st.sent ++ [bytes] }
      | Except.error _ => st := by
  cases f with
  | zero => rfl
  | succ f =>
    unfold sendGo
    cases enc m with
    | ok bytes => rfl
    | error e => simp [h]

/-- The recursion budget of `sendGo` is irrelevant as soon as it is
positive: the flag set before the nested call stops any deeper recursion. -/
theorem sendGo_fuel_irrelevant (enc : Enc) (env : Env) (f : Nat) (st : State)
    (m : Msg) :
    sendGo enc env (f + 1) st m = sendGo enc env 1 st m := by
  show sendGo enc env (f + 1) st m = sendGo enc env (0 + 1) st m
  unfold sendGo
  cases enc m with
  | ok bytes => rfl
  | error e =>
    by_cases hflag : st.recurringSend = true
    · simp [hflag]
    · simp only [Bool.not_eq_true] at hflag
      simp only [hflag, Bool.false_eq_true, if_false]
      rw [sendGo_flagged enc env f _ _ rfl, sendGo_flagged enc env 0 _ _ rfl]

/-- Closed form of `send` on an encoding failure with the flag clear: the
fallback log message is encoded and written, or dropped when it fails too;
the flag ends clear either way. -/
theorem send_error_eq (enc : Enc) (env : Env) (st : State) (m : Msg)
    (e : String) (henc : enc m = Except.error e)
    (hflag : st.recurringSend = false) :
    send enc env st m =
      match enc (fallbackMessage env st e) with
      | Except.ok bytes =>
        { st with sent := st.sent ++ [bytes] }
      | Except.error _ => st := by
  show sendGo enc env (0 + 1) st m = _
  unfold sendGo
  rw [henc, hflag]
  simp only [Bool.false_eq_true, if_false]
  rw [sendGo_flagged enc env 0 _ _ rfl]
  rw [fallbackMessage]
  cases hfb : enc (logMessage env { st with recurringSend := true }
      (errorSubject e) (JVal.str "") env.now GoMap.empty) with
  | ok bytes => simp [hfb, ← hflag]
  | error e2 => simp [hfb, ← hflag]

/-- `send` never touches the stored default labels, the app-name override or
the version string, whatever the encoder does. -/
theorem sendGo_preserves_config (enc : Enc) (env : Env) (f : Nat) (st : State)
    (m : Msg) :
    (sendGo enc env f st m).defaultLabels = st.defaultLabels ∧
      (sendGo enc env f st m).appName = st.appName ∧
      (sendGo enc env f st m).version = st.version := by
  induction f generalizing st m with
  | zero =>
    unfold sendGo
    cases enc m with
    | ok bytes => exact ⟨rfl, rfl, rfl⟩
    | error e => exact ⟨rfl, rfl, rfl⟩
  | succ f ih =>
    unfold sendGo
    cases enc m with
    | ok bytes => exact ⟨rfl, rfl, rfl⟩
    | error e =>
      by_cases hflag : st.recurringSend = true
      · simp [hflag]
      · simp only [Bool.not_eq_true] at hflag
        simp only [hflag]
        have h := ih { st with recurringSend := true }
          (logMessage env { st with recurringSend := true }
            (errorSubject e) (JVal.str "") env.now GoMap.empty)
        exact ⟨h.1, h.2.1, h.2.2⟩

/-- Deleting keys that are all absent from a map leaves it unchanged. -/
theorem foldl_erase_absent (m : GoMap JVal) (keys : List String)
    (h : ∀ k ∈ keys, m k = none) : keys.foldl GoMap.erase m = m := by
  induction keys generalizing m with
  | nil => rfl
  | cons k ks ih =>
    have hm : GoMap.erase m k = m := by
      funext q
      unfold GoMap.erase
      split
      · rename_i hq
        rw [hq]
        exact (h k (List.mem_cons_self k ks)).symm
      · rfl
    rw [List.foldl_cons, hm]
    exact ih m fun k2 hk2 => h k2 (List.mem_cons_of_mem k hk2)

/-! Concrete instances used by witnesses and counterexamples. -/

/-- A concrete emission environment for witnesses. -/
def wEnv : Env :=
  { now := 1234567890, pid := 42, args0 := "prog", hasturAppName := "" }

/-- A concrete library state for witnesses: one stored default label and an
explicit app-name override. -/
def wState : State :=
  { appName := "test.app",
    defaultLabels := GoMap.empty.insert "label2" (JVal.str "stored"),
    recurringSend := false, version := "0.0.1", sent := [] }

/-- A concrete caller label map colliding with the stored default on
`label2` and trying to set `app` and `pid`. -/
def wCaller : GoMap JVal :=
  ((GoMap.empty.insert "label2" (JVal.str "caller")).insert
      "label1" (JVal.str "value1")).insert "app" (JVal.str "evil")

/-- A concrete environment for the counterexamples, with the environment
variable also set. -/
def cEnv : Env :=
  { now := 0, pid := 7, args0 := "prog", hasturAppName := "env.name" }

/-- A concrete state whose stored defaults contain an entry named `app`,
together with a non-empty explicit override. -/
def cState : State :=
  { appName := "real.app",
    defaultLabels := GoMap.empty.insert "app" (JVal.str "stored.app"),
    recurringSend := false, version := "0.0.1", sent := [] }

/-! Claim C1. -/

/-- C1 counterexample: with a stored default entry named `app`, the emitted
message's `app` label is taken from the stored defaults, not recomputed
fresh from the resolver, refuting the claim as stated. -/
theorem mark_labels_app_from_stored_defaults :
    (markMessage cEnv cState "n" "v" 0 GoMap.empty) "labels"
        = some (FVal.map (mergeDefaultLabels cEnv cState GoMap.empty)) ∧
      mergeDefaultLabels cEnv cState GoMap.empty "app"
        = some (JVal.str "stored.app") ∧
      AppName cEnv cState = "real.app" ∧
      JVal.str "stored.app" ≠ JVal.str "real.app" := by
  refine ⟨rfl, rfl, rfl, ?_⟩
  simp

/-- C1 (amended): the merged labels of every built message carry the fresh
`app` and `pid` values, whatever the caller labels contain (even entries
named `app` or `pid`), provided the stored default-label map itself has no
entry named `app` or `pid`; a stored entry with one of those names would
overwrite the fresh value, because `DefaultLabels` copies the stored map
over the freshly computed pair. -/
theorem merge_app_pid_fresh_unless_stored (env : Env) (st : State)
    (caller : GoMap JVal) (name value : String) (ts : Int)
    (happ : st.defaultLabels "app" = none)
    (hpid : st.defaultLabels "pid" = none) :
    (markMessage env st name value ts caller) "labels"
        = some (FVal.map (mergeDefaultLabels env st caller)) ∧
      mergeDefaultLabels env st caller "app"
        = some (JVal.str (AppName env st)) ∧
      mergeDefaultLabels env st caller "pid" = some (JVal.int env.pid) := by
  refine ⟨rfl, ?_, ?_⟩ <;> rw [mergeDefaultLabels_apply] <;> simp [happ, hpid]

/-- C1 witness: in a concrete state with no stored `app`/`pid` entry, a
caller label map that tries to set `app` is overridden by the fresh value. -/
theorem merge_app_pid_fresh_unless_stored_witness :
    mergeDefaultLabels wEnv wState wCaller "app" = some (JVal.str "test.app") ∧
      mergeDefaultLabels wEnv wState wCaller "pid" = some (JVal.int 42) := by
  have h := merge_app_pid_fresh_unless_stored wEnv wState wCaller "n" "v" 0 rfl rfl
  exact ⟨h.2.1, h.2.2⟩

/-! Claim C2. -/

/-- C2: for a key other than `app`/`pid` present in both the stored defaults
and the caller labels, the built message's labels map it to the
stored-default value; and every key absent from the resolved defaults is
taken from the caller map (the merge copies the caller labels first, then
the resolved defaults over them). -/
theorem merge_stored_default_wins_on_collision (env : Env) (st : State)
    (caller : GoMap JVal) (name value : String) (ts : Int) (k : String)
    (v w : JVal) (_happ : k ≠ "app") (_hpid : k ≠ "pid")
    (hstored : st.defaultLabels k = some v) (_hcaller : caller k = some w) :
    (markMessage env st name value ts caller) "labels"
        = some (FVal.map (mergeDefaultLabels env st caller)) ∧
      mergeDefaultLabels env st caller k = some v ∧
      (∀ q : String, st.defaultLabels q = none → q ≠ "app" → q ≠ "pid" →
        mergeDefaultLabels env st caller q = caller q) := by
  refine ⟨rfl, ?_, ?_⟩
  · rw [mergeDefaultLabels_apply, hstored]
  · intro q hq hqa hqp
    rw [mergeDefaultLabels_apply, hq]
    simp [hqa, hqp]

/-- C2 witness: the collision on `label2` resolves to the stored value. -/
theorem merge_stored_default_wins_on_collision_witness :
    mergeDefaultLabels wEnv wState wCaller "label2" = some (JVal.str "stored") := by
  have h := merge_stored_default_wins_on_collision wEnv wState wCaller "n" "v" 0
    "label2" (JVal.str "stored") (JVal.str "caller")
    (by decide) (by decide) rfl rfl
  exact h.2.1

/-! Claim C3. -/

/-- C3: on an encoding failure, `send` emits through the same send path a
fallback log message whose subject carries the encoder's error text, guarded
by the re-entrancy flag: with the flag already set the message is dropped
with no recursion; with the flag clear, the fallback is written when it
encodes and silently dropped when it does not, and the flag is clear again
on every exit path, so the next encoding failure again produces a
fallback. -/
theorem send_encoding_failure_fallback (enc : Enc) (env : Env) (st : State)
    (m : Msg) (e : String) (henc : enc m = Except.error e) :
    (st.recurringSend = true → send enc env st m = st) ∧
    (st.recurringSend = false →
      (send enc env st m).recurringSend = false ∧
      (send enc env st m).sent = st.sent ++
        (match enc (fallbackMessage env st e) with
         | Except.ok bytes => [bytes]
         | Except.error _ => []) ∧
      (fallbackMessage env st e) "type" = some (FVal.val (JVal.str "log")) ∧
      (fallbackMessage env st e) "subject"
        = some (FVal.val (JVal.str (truncateTo 7168 (errorSubject e))))) := by
  constructor
  · intro h
    rw [send, sendGo_flagged enc env 1 st m h, henc]
  · intro h
    refine ⟨?_, ?_, rfl, rfl⟩ <;>
      rw [send_error_eq enc env st m e henc h] <;>
      cases hfb : enc (fallbackMessage env st e) <;> simp [h]

/-- An encoder that fails on every message, with the error text of the
test scenario that smuggles a Go channel into a label value. -/
def encFail : Enc := fun _ => Except.error "json: unsupported type: chan bool"

/-- C3 witness: a mark that fails to encode under an always-failing encoder
leaves the flag clear and, since the fallback cannot encode either, writes
nothing. -/
theorem send_encoding_failure_fallback_witness :
    (send encFail wEnv wState
        (markMessage wEnv wState "test.mark" "foo" 0 GoMap.empty)).recurringSend
        = false ∧
      (send encFail wEnv wState
        (markMessage wEnv wState "test.mark" "foo" 0 GoMap.empty)).sent = [] := by
  have h := send_encoding_failure_fallback encFail wEnv wState
    (markMessage wEnv wState "test.mark" "foo" 0 GoMap.empty)
    "json: unsupported type: chan bool" rfl
  have h2 := h.2 rfl
  refine ⟨h2.1, ?_⟩
  rw [h2.2.1]
  rfl

/-! Claim C4. -/

/-- C4: the library surface has `InfoProcess`/`InfoAgent` builders and
explicit-timestamp Full variants emitting a message with type
`info_process` or `info_agent`, the given tag string, the given data map, a
converted timestamp and merged labels; the convenience forms default the
timestamp to now and the labels to a fresh empty map. -/
theorem info_builders_spec (enc : Enc) (env : Env) (st : State) (tag : String)
    (data : GoMap JVal) (ts : Int) (labels : GoMap JVal) :
    (infoProcessMessage env st tag data ts labels) "type"
        = some (FVal.val (JVal.str "info_process")) ∧
      (infoProcessMessage env st tag data ts labels) "tag"
        = some (FVal.val (JVal.str tag)) ∧
      (infoProcessMessage env st tag data ts labels) "data"
        = some (FVal.map data) ∧
      (infoProcessMessage env st tag data ts labels) "timestamp"
        = some (FVal.val (JVal.int (convertTime ts))) ∧
      (infoProcessMessage env st tag data ts labels) "labels"
        = some (FVal.map (mergeDefaultLabels env st labels)) ∧
      (infoAgentMessage env st tag data ts labels) "type"
        = some (FVal.val (JVal.str "info_agent")) ∧
      (infoAgentMessage env st tag data ts labels) "tag"
        = some (FVal.val (JVal.str tag)) ∧
      (infoAgentMessage env st tag data ts labels) "data"
        = some (FVal.map data) ∧
      (infoAgentMessage env st tag data ts labels) "timestamp"
        = some (FVal.val (JVal.int (convertTime ts))) ∧
      (infoAgentMessage env st tag data ts labels) "labels"
        = some (FVal.map (mergeDefaultLabels env st labels)) ∧
      InfoProcessFull enc env st tag data ts labels
        = send enc env st (infoProcessMessage env st tag data ts labels) ∧
      InfoAgentFull enc env st tag data ts labels
        = send enc env st (infoAgentMessage env st tag data ts labels) ∧
      InfoProcess enc env st tag data
        = InfoProcessFull enc env st tag data env.now GoMap.empty ∧
      InfoAgent enc env st tag data
        = InfoAgentFull enc env st tag data env.now GoMap.empty :=
  ⟨rfl, rfl, rfl, rfl, rfl, rfl, rfl, rfl, rfl, rfl, rfl, rfl, rfl, rfl⟩

/-! Claim C5. -/

/-- A string strictly over the limit is truncated to its first `limit`
characters, and the result has length exactly `limit`. -/
theorem truncateTo_long (limit : Nat) (s : String) (h : limit < s.length) :
    truncateTo limit s = String.mk (s.data.take limit) ∧
      (truncateTo limit s).length = limit := by
  have heq : truncateTo limit s = String.mk (s.data.take limit) := by
    simp [truncateTo, h]
  refine ⟨heq, ?_⟩
  rw [heq]
  show (s.data.take limit).length = limit
  rw [List.length_take]
  have hs : s.length = s.data.length := rfl
  omega

/-- A string at or under the limit is returned unchanged. -/
theorem truncateTo_short (limit : Nat) (s : String) (h : s.length ≤ limit) :
    truncateTo limit s = s := by
  rw [truncateTo, if_neg (by omega)]

/-- C5: an event subject or body longer than 3072 characters is truncated to
exactly its first 3072 characters, one at or under 3072 is emitted
unchanged; a log subject longer than 7168 characters is truncated to exactly
its first 7168 characters; the message is always built, never rejected. -/
theorem event_log_truncation (env : Env) (st : State)
    (name subject body logSubject : String) (attn : List String) (data : JVal)
    (ts : Int) (labels : GoMap JVal) :
    (3072 < subject.length →
      (eventMessage env st name subject body attn ts labels) "subject"
          = some (FVal.val (JVal.str (String.mk (subject.data.take 3072)))) ∧
        (truncateTo 3072 subject).length = 3072) ∧
    (subject.length ≤ 3072 →
      (eventMessage env st name subject body attn ts labels) "subject"
        = some (FVal.val (JVal.str subject))) ∧
    (3072 < body.length →
      (eventMessage env st name subject body attn ts labels) "body"
          = some (FVal.val (JVal.str (String.mk (body.data.take 3072)))) ∧
        (truncateTo 3072 body).length = 3072) ∧
    (body.length ≤ 3072 →
      (eventMessage env st name subject body attn ts labels) "body"
        = some (FVal.val (JVal.str body))) ∧
    (7168 < logSubject.length →
      (logMessage env st logSubject data ts labels) "subject"
          = some (FVal.val (JVal.str (String.mk (logSubject.data.take 7168)))) ∧
        (truncateTo 7168 logSubject).length = 7168) ∧
    (logSubject.length ≤ 7168 →
      (logMessage env st logSubject data ts labels) "subject"
        = some (FVal.val (JVal.str logSubject))) := by
  have esub : (eventMessage env st name subject body attn ts labels) "subject"
      = some (FVal.val (JVal.str (truncateTo 3072 subject))) := rfl
  have ebody : (eventMessage env st name subject body attn ts labels) "body"
      = some (FVal.val (JVal.str (truncateTo 3072 body))) := rfl
  have lsub : (logMessage env st logSubject data ts labels) "subject"
      = some (FVal.val (JVal.str (truncateTo 7168 logSubject))) := rfl
  refine ⟨fun h => ⟨?_, (truncateTo_long 3072 subject h).2⟩,
    fun h => ?_,
    fun h => ⟨?_, (truncateTo_long 3072 body h).2⟩,
    fun h => ?_,
    fun h => ⟨?_, (truncateTo_long 7168 logSubject h).2⟩,
    fun h => ?_⟩
  · rw [esub, (truncateTo_long 3072 subject h).1]
  · rw [esub, truncateTo_short 3072 subject h]
  · rw [ebody, (truncateTo_long 3072 body h).1]
  · rw [ebody, truncateTo_short 3072 body h]
  · rw [lsub, (truncateTo_long 7168 logSubject h).1]
  · rw [lsub, truncateTo_short 7168 logSubject h]

/-- C5 witness: a 3073-character event subject truncates to length exactly
3072, a short subject passes through unchanged, and a 7169-character log
subject truncates to length exactly 7168. -/
theorem event_log_truncation_witness :
    (truncateTo 3072 (String.mk (List.replicate 3073 'a'))).length = 3072 ∧
      (eventMessage wEnv wState "n" "sub" "bod" [] 0 GoMap.empty) "subject"
        = some (FVal.val (JVal.str "sub")) ∧
      (truncateTo 7168 (String.mk (List.replicate 7169 'b'))).length = 7168 := by
  have hlen1 : 3072 < (String.mk (List.replicate 3073 'a')).length := by
    show 3072 < (List.replicate 3073 'a').length
    rw [List.length_replicate]
    omega
  have hlen2 : 7168 < (String.mk (List.replicate 7169 'b')).length := by
    show 7168 < (List.replicate 7169 'b').length
    rw [List.length_replicate]
    omega
  have h := event_log_truncation wEnv wState "n"
    (String.mk (List.replicate 3073 'a')) "bod"
    (String.mk (List.replicate 7169 'b')) [] JVal.null 0 GoMap.empty
  have h2 := event_log_truncation wEnv wState "n" "sub" "bod" "ls" []
    JVal.null 0 GoMap.empty
  exact ⟨(h.1 hlen1).2, h2.2.1 (by decide), (h.2.2.2.2.1 hlen2).2⟩

/-! Claim C6. -/

/-- C6 counterexample: with a non-empty explicit override (which the claim
says must win) but a stored default entry named `app`, the emitted label is
the stored value, not the override: the priority chain is bypassed. -/
theorem mark_labels_app_ignores_override :
    cState.appName = "real.app" ∧ ("real.app" : String) ≠ "" ∧
      (markMessage cEnv cState "n" "v" 0 GoMap.empty) "labels"
        = some (FVal.map (mergeDefaultLabels cEnv cState GoMap.empty)) ∧
      mergeDefaultLabels cEnv cState GoMap.empty "app"
        = some (JVal.str "stored.app") ∧
      JVal.str "stored.app" ≠ JVal.str "real.app" := by
  refine ⟨rfl, by decide, rfl, rfl, ?_⟩
  simp

/-- C6 (amended): `AppName` resolves with priority override, then
`HASTUR_APP_NAME`, then the invocation name, reading the override and the
environment at emission time (so a changed override takes effect at once);
and the emitted `app` label equals this resolved value provided the stored
default labels contain no entry named `app` (such an entry would override
it). -/
theorem appName_resolution_priority (env : Env) (st : State) :
    (st.appName ≠ "" → AppName env st = st.appName) ∧
    (st.appName = "" → env.hasturAppName ≠ "" →
      AppName env st = env.hasturAppName) ∧
    (st.appName = "" → env.hasturAppName = "" → AppName env st = env.args0) ∧
    (∀ name : String, name ≠ "" → AppName env (SetAppName st name) = name) ∧
    (st.defaultLabels "app" = none → ∀ caller n v ts,
      (markMessage env st n v ts caller) "labels"
          = some (FVal.map (mergeDefaultLabels env st caller)) ∧
        mergeDefaultLabels env st caller "app"
          = some (JVal.str (AppName env st))) := by
  refine ⟨fun h => ?_, fun h1 h2 => ?_, fun h1 h2 => ?_, fun name h => ?_,
    fun h caller n v ts => ⟨rfl, ?_⟩⟩
  · simp [AppName, h]
  · simp [AppName, h1, h2]
  · simp [AppName, h1, h2]
  · simp [AppName, SetAppName, h]
  · rw [mergeDefaultLabels_apply, h]
    simp

/-- C6 witness: with the override set to `test.app` and no stored `app`
entry, the resolver and the emitted label both give `test.app`; clearing
the override in the same environment makes the environment variable win on
the next resolution. -/
theorem appName_resolution_priority_witness :
    AppName wEnv wState = "test.app" ∧
      mergeDefaultLabels wEnv wState GoMap.empty "app"
        = some (JVal.str (AppName wEnv wState)) ∧
      AppName cEnv (SetAppName cState "") = "env.name" := by
  have h1 := (appName_resolution_priority wEnv wState).1 (by decide)
  have h2 := ((appName_resolution_priority wEnv wState).2.2.2.2 rfl
    GoMap.empty "n" "v" 0).2
  have h3 := (appName_resolution_priority cEnv (SetAppName cState "")).2.1
    rfl (by decide)
  exact ⟨h1, h2, h3⟩

/-! Claim C7. -/

/-- C7: the `reg_process` data field is the base map with `name`, `language`
`"go"` and the library version, overlaid by the caller data with the caller
winning every collision (including on `name`, `language`, `version`),
because the base fields are set first and the caller entries copied over
them. -/
theorem registerProcess_data_overlay (env : Env) (st : State) (name : String)
    (data : GoMap JVal) (ts : Int) (labels : GoMap JVal) (k : String)
    (v : JVal) :
    (regProcessMessage env st name data ts labels) "data"
        = some (FVal.map (regProcessData st name data)) ∧
      (regProcessMessage env st name data ts labels) "type"
        = some (FVal.val (JVal.str "reg_process")) ∧
      (data k = some v → regProcessData st name data k = some v) ∧
      (data "name" = none →
        regProcessData st name data "name" = some (JVal.str name)) ∧
      (data "language" = none →
        regProcessData st name data "language" = some (JVal.str "go")) ∧
      (data "version" = none →
        regProcessData st name data "version" = some (JVal.str st.version)) ∧
      (data k = none → k ≠ "name" → k ≠ "language" → k ≠ "version" →
        regProcessData st name data k = none) := by
  refine ⟨rfl, rfl, fun h => ?_, fun h => ?_, fun h => ?_, fun h => ?_,
    fun h h1 h2 h3 => ?_⟩ <;>
    simp [regProcessData, GoMap.addAll, GoMap.insert, GoMap.empty, h]
  simp [h1, h2, h3]

/-- C7 witness: caller data overwrites `language` but leaves `name` and
`version` at their base values. -/
theorem registerProcess_data_overlay_witness :
    regProcessData wState "test.process"
        (GoMap.empty.insert "language" (JVal.str "ruby")) "language"
        = some (JVal.str "ruby") ∧
      regProcessData wState "test.process"
        (GoMap.empty.insert "language" (JVal.str "ruby")) "name"
        = some (JVal.str "test.process") ∧
      regProcessData wState "test.process"
        (GoMap.empty.insert "language" (JVal.str "ruby")) "version"
        = some (JVal.str "0.0.1") := by
  have h := registerProcess_data_overlay wEnv wState "test.process"
    (GoMap.empty.insert "language" (JVal.str "ruby")) 0 GoMap.empty
    "language" (JVal.str "ruby")
  exact ⟨h.2.2.1 rfl, h.2.2.2.1 rfl, h.2.2.2.2.2.1 rfl⟩

/-! Claim C8. -/

/-- C8 counterexample: when the stored defaults contain an entry named
`app` (addable via `AddDefaultLabels`), removing `app` does change the next
emitted message: its `app` label reverts from the stored value to the
freshly computed one. -/
theorem removeDefaultLabels_app_changes_message :
    mergeDefaultLabels cEnv cState GoMap.empty "app"
        = some (JVal.str "stored.app") ∧
      mergeDefaultLabels cEnv (RemoveDefaultLabels cState ["app"])
          GoMap.empty "app"
        = some (JVal.str "real.app") ∧
      JVal.str "stored.app" ≠ JVal.str "real.app" := by
  refine ⟨rfl, rfl, ?_⟩
  simp

/-- C8 (amended): removing a key absent from the stored defaults leaves the
state unchanged (a no-op, no error), and after removing any keys — `app`
and `pid` included — both `app` and `pid` are still present in the next
built message's labels, because they are recomputed at emission; but when
the stored map itself contains an entry named `app` or `pid`, removal
deletes that entry and the emitted value reverts to the computed one. -/
theorem removeDefaultLabels_amended (env : Env) (st : State)
    (keys : List String) (caller : GoMap JVal) (k : String)
    (hk : st.defaultLabels k = none) :
    RemoveDefaultLabels st [k] = st ∧
      ((∀ k2 ∈ keys, st.defaultLabels k2 = none) →
        RemoveDefaultLabels st keys = st) ∧
      (∃ a, mergeDefaultLabels env (RemoveDefaultLabels st keys) caller "app"
        = some a) ∧
      (∃ p, mergeDefaultLabels env (RemoveDefaultLabels st keys) caller "pid"
        = some p) := by
  refine ⟨?_, fun h => ?_, ?_, ?_⟩
  · show { st with defaultLabels := [k].foldl GoMap.erase st.defaultLabels } = st
    rw [foldl_erase_absent st.defaultLabels [k] (by simpa using hk)]
  · show { st with defaultLabels := keys.foldl GoMap.erase st.defaultLabels } = st
    rw [foldl_erase_absent st.defaultLabels keys h]
  · rw [mergeDefaultLabels_apply]
    cases hd : (RemoveDefaultLabels st keys).defaultLabels "app" <;> simp
  · rw [mergeDefaultLabels_apply]
    cases hd : (RemoveDefaultLabels st keys).defaultLabels "pid" <;> simp

/-- C8 witness: removing the never-added key `ghost`, or `app` and `pid`
themselves, is a no-op on a state that stores none of them, and `app` and
`pid` are still present in the merge afterwards. -/
theorem removeDefaultLabels_amended_witness :
    RemoveDefaultLabels wState ["ghost"] = wState ∧
      RemoveDefaultLabels wState ["app", "pid"] = wState ∧
      (∃ a, mergeDefaultLabels wEnv (RemoveDefaultLabels wState ["app", "pid"])
        GoMap.empty "app" = some a) ∧
      (∃ p, mergeDefaultLabels wEnv (RemoveDefaultLabels wState ["app", "pid"])
        GoMap.empty "pid" = some p) := by
  have h1 := removeDefaultLabels_amended wEnv wState ["ghost"] GoMap.empty
    "ghost" rfl
  have h2 := removeDefaultLabels_amended wEnv wState ["app", "pid"]
    GoMap.empty "ghost" rfl
  refine ⟨h1.1, h2.2.1 ?_, h2.2.2.1, h2.2.2.2⟩
  intro k2 hk2
  simp only [List.mem_cons, List.not_mem_nil, or_false] at hk2
  rcases hk2 with h | h <;> subst h <;> rfl

/-! Claim C9. -/

/-- C9: the emitted timestamp field is `convertTime` of the nanosecond
clock value, the integer quotient by 1000 with truncation toward zero
(the floor division of the absolute value, signed back), and scaling the
result back to nanoseconds lands within 999 nanoseconds of the original —
far inside the claimed one second. -/
theorem convertTime_truncation_roundtrip (env : Env) (st : State)
    (name value : String) (ts : Int) (labels : GoMap JVal) :
    (markMessage env st name value ts labels) "timestamp"
        = some (FVal.val (JVal.int (convertTime ts))) ∧
      (0 ≤ ts → convertTime ts = Int.ofNat (ts.natAbs / 1000)) ∧
      (ts ≤ 0 → convertTime ts = -Int.ofNat (ts.natAbs / 1000)) ∧
      (ts - 1000 * convertTime ts).natAbs ≤ 999 ∧
      (ts - 1000 * convertTime ts).natAbs < 1000000000 := by
  refine ⟨rfl, ?_, ?_, ?_, ?_⟩
  · intro h
    cases ts with
    | ofNat m => rfl
    | negSucc m =>
      rw [Int.negSucc_eq] at h
      omega
  · intro h
    cases ts with
    | ofNat m =>
      have hm : m = 0 := by
        simp only [Int.ofNat_eq_natCast] at h
        omega
      subst hm
      rfl
    | negSucc m => rfl
  · cases ts with
    | ofNat m =>
      show (Int.ofNat m - 1000 * Int.ofNat (m / 1000)).natAbs ≤ 999
      simp only [Int.ofNat_eq_natCast]
      have h := Nat.div_add_mod m 1000
      have h2 : m % 1000 < 1000 := Nat.mod_lt m (by decide)
      omega
    | negSucc m =>
      show (Int.negSucc m - 1000 * -Int.ofNat ((m + 1) / 1000)).natAbs ≤ 999
      rw [Int.negSucc_eq]
      simp only [Int.ofNat_eq_natCast]
      have h := Nat.div_add_mod (m + 1) 1000
      have h2 : (m + 1) % 1000 < 1000 := Nat.mod_lt (m + 1) (by decide)
      omega
  · cases ts with
    | ofNat m =>
      show (Int.ofNat m - 1000 * Int.ofNat (m / 1000)).natAbs < 1000000000
      simp only [Int.ofNat_eq_natCast]
      have h := Nat.div_add_mod m 1000
      have h2 : m % 1000 < 1000 := Nat.mod_lt m (by decide)
      omega
    | negSucc m =>
      show (Int.negSucc m - 1000 * -Int.ofNat ((m + 1) / 1000)).natAbs
        < 1000000000
      rw [Int.negSucc_eq]
      simp only [Int.ofNat_eq_natCast]
      have h := Nat.div_add_mod (m + 1) 1000
      have h2 : (m + 1) % 1000 < 1000 := Nat.mod_lt (m + 1) (by decide)
      omega

/-- C9 witness: a concrete nanosecond timestamp converts to its truncated
microsecond quotient and lands back within a second. -/
theorem convertTime_truncation_roundtrip_witness :
    convertTime 1234567890 = 1234567 ∧
      ((1234567890 : Int) - 1000 * convertTime 1234567890).natAbs ≤ 999 := by
  have h := convertTime_truncation_roundtrip wEnv wState "n" "v" 1234567890
    GoMap.empty
  have h1 := h.2.1 (by decide)
  exact ⟨h1.trans (by decide), h.2.2.2.1⟩

/-! Claim C10. -/

/-- C10: building and sending any message leaves both inputs of the merge
untouched: the stored default-label map (and the rest of the configuration)
is identical after every builder call whatever the encoder does, and the
merge result is assembled in a fresh map seeded from `GoMap.empty`, never
written into the caller's label map (which, as a value of this embedding,
the builders cannot mutate). -/
theorem builders_preserve_inputs (enc : Enc) (env : Env) (st : State)
    (name value subject body tag : String) (iv : Int) (fv tv : Nat)
    (attn : List String) (data : JVal) (dmap : GoMap JVal) (ts : Int)
    (labels : GoMap JVal) :
    (MarkFull enc env st name value ts labels).defaultLabels
        = st.defaultLabels ∧
      (CounterFull enc env st name iv ts labels).defaultLabels
        = st.defaultLabels ∧
      (GaugeFull enc env st name fv ts labels).defaultLabels
        = st.defaultLabels ∧
      (EventFull enc env st name subject body attn ts labels).defaultLabels
        = st.defaultLabels ∧
      (LogFull enc env st subject data ts labels).defaultLabels
        = st.defaultLabels ∧
      (RegisterProcess enc env st name dmap ts labels).defaultLabels
        = st.defaultLabels ∧
      (HeartbeatFull enc env st name fv tv ts labels).defaultLabels
        = st.defaultLabels ∧
      (InfoProcessFull enc env st tag dmap ts labels).defaultLabels
        = st.defaultLabels ∧
      (InfoAgentFull enc env st tag dmap ts labels).defaultLabels
        = st.defaultLabels ∧
      (MarkFull enc env st name value ts labels).appName = st.appName ∧
      (MarkFull enc env st name value ts labels).version = st.version ∧
      mergeDefaultLabels env st labels
        = GoMap.addAll (GoMap.addAll GoMap.empty labels)
            (DefaultLabels env st) :=
  ⟨(sendGo_preserves_config enc env 1 st _).1,
    (sendGo_preserves_config enc env 1 st _).1,
    (sendGo_preserves_config enc env 1 st _).1,
    (sendGo_preserves_config enc env 1 st _).1,
    (sendGo_preserves_config enc env 1 st _).1,
    (sendGo_preserves_config enc env 1 st _).1,
    (sendGo_preserves_config enc env 1 st _).1,
    (sendGo_preserves_config enc env 1 st _).1,
    (sendGo_preserves_config enc env 1 st _).1,
    (sendGo_preserves_config enc env 1 st _).2.1,
    (sendGo_preserves_config enc env 1 st _).2.2, rfl⟩

end Hastur
